import Mathlib

/-!
Verification development for the drive-linkup ride-sharing client.

The definitions below are shallow embeddings of the location-tracking,
booking and trip operations of the repository.  Machine state that the
TypeScript code keeps in React state, the `window` object, or the backing
Supabase store is modelled as explicit record fields; asynchronous store
calls are modelled by passing their outcome (accepted / rejected) as an
explicit argument.  Timestamps (`updated_at`, departure times) are epoch
numbers, ids are naturals, statuses are the literal strings of the source.
-/

/-- A location row (`DriverLocation` / `PassengerLocation` in `src/types`).
`actor_id` stands for the one actor-id column of the row: `driver_id` in
`driver_locations`, `passenger_id` in `passenger_locations`. -/
structure LocRow where
  id : Nat
  actor_id : Nat
  latitude : Int
  longitude : Int
  heading : Option Int
  speed : Option Int
  updated_at : Nat
deriving Repr, DecidableEq

/-- One step of the reduce in `EnhancedMapComponent.fetchDriverLocations`
(`src/src/components/map/EnhancedMapComponent.tsx` lines 183-188 and
`src/unnamed/part_004` lines 256-261): push the row only when no row for
its actor id has been emitted yet. -/
def fsStep (acc : List LocRow) (location : LocRow) : List LocRow :=
  match acc.find? (fun l => l.actor_id == location.actor_id) with
  | none => acc ++ [location]
  | some _ => acc

/-- The first-seen dedup: `data.reduce(..., [])` over the fetched rows. -/
def dedupFirstSeen (rows : List LocRow) : List LocRow :=
  rows.foldl fsStep []

/-- One step of the reduce in `MapComponent.fetchDriverLocations`
(`src/src/components/map/MapComponent.tsx` lines 113-124) and
`fetchPassengerLocations` (`src/unnamed/part_004` lines 227-238): look for
an emitted row of the same actor; replace it when the current row has a
strictly greater timestamp, push when there is none.  `acc.indexOf(existing)`
is the position of the first row matching the actor, hence the `findIdx`. -/
def replStep (acc : List LocRow) (current : LocRow) : List LocRow :=
  match acc.find? (fun l => l.actor_id == current.actor_id) with
  | none => acc ++ [current]
  | some existing =>
    if existing.updated_at < current.updated_at then
      acc.set (acc.findIdx (fun l => l.actor_id == current.actor_id)) current
    else acc

/-- The replace-on-strictly-greater dedup: `data.reduce(..., [])`. -/
def dedupReplace (rows : List LocRow) : List LocRow :=
  rows.foldl replStep []

/-- The descending order produced by `.order(updated_at, ascending false)`
on the fetch: every row is no older than the rows after it. -/
def SortedDesc (rows : List LocRow) : Prop :=
  rows.Pairwise (fun a b => b.updated_at ≤ a.updated_at)

instance : DecidablePred SortedDesc := fun rows => by
  unfold SortedDesc
  infer_instance

lemma fsStep_none {acc : List LocRow} {r : LocRow}
    (h : acc.find? (fun l => l.actor_id == r.actor_id) = none) :
    fsStep acc r = acc ++ [r] := by
  unfold fsStep; rw [h]

lemma fsStep_some {acc : List LocRow} {r e : LocRow}
    (h : acc.find? (fun l => l.actor_id == r.actor_id) = some e) :
    fsStep acc r = acc := by
  unfold fsStep; rw [h]

lemma replStep_none {acc : List LocRow} {r : LocRow}
    (h : acc.find? (fun l => l.actor_id == r.actor_id) = none) :
    replStep acc r = acc ++ [r] := by
  unfold replStep; rw [h]

lemma replStep_skip {acc : List LocRow} {r e : LocRow}
    (h : acc.find? (fun l => l.actor_id == r.actor_id) = some e)
    (hts : ¬ e.updated_at < r.updated_at) :
    replStep acc r = acc := by
  unfold replStep; rw [h]; simp [hts]

/-- Actor ids present in the fold result: exactly those of the accumulator
plus those of the remaining rows. -/
lemma fs_actors (rows : List LocRow) :
    ∀ acc : List LocRow, ∀ a : Nat,
      a ∈ (rows.foldl fsStep acc).map LocRow.actor_id ↔
        a ∈ acc.map LocRow.actor_id ∨ a ∈ rows.map LocRow.actor_id := by
  induction rows with
  | nil => intro acc a; simp
  | cons r rest ih =>
    intro acc a
    rw [List.foldl_cons]
    cases hfind : acc.find? (fun l => l.actor_id == r.actor_id) with
    | none =>
      rw [fsStep_none hfind, ih]
      simp only [List.map_append, List.map_cons, List.mem_append,
        List.mem_cons, List.map_nil, List.mem_singleton]
      tauto
    | some e =>
      have he : e.actor_id = r.actor_id := by
        have := List.find?_some hfind
        simpa using this
      have hmem : r.actor_id ∈ acc.map LocRow.actor_id := by
        exact he ▸ List.mem_map_of_mem LocRow.actor_id (List.mem_of_find?_eq_some hfind)
      rw [fsStep_some hfind, ih]
      simp only [List.map_cons, List.mem_cons]
      constructor
      · intro h
        rcases h with h | h
        · exact Or.inl h
        · exact Or.inr (Or.inr h)
      · intro h
        rcases h with h | h | h
        · exact Or.inl h
        · exact Or.inl (h ▸ hmem)
        · exact Or.inr h

/-- No duplicate actor ids ever enter the first-seen accumulator. -/
lemma fs_nodup (rows : List LocRow) :
    ∀ acc : List LocRow,
      (acc.map LocRow.actor_id).Nodup →
      ((rows.foldl fsStep acc).map LocRow.actor_id).Nodup := by
  induction rows with
  | nil => intro acc h; simpa using h
  | cons r rest ih =>
    intro acc hnd
    rw [List.foldl_cons]
    cases hfind : acc.find? (fun l => l.actor_id == r.actor_id) with
    | none =>
      rw [fsStep_none hfind]
      apply ih
      rw [List.map_append]
      refine List.Nodup.append hnd (by simp) ?_
      intro a ha hb
      simp only [List.map_cons, List.map_nil, List.mem_singleton] at hb
      subst hb
      rw [List.find?_eq_none] at hfind
      rcases List.mem_map.mp ha with ⟨l, hl, hla⟩
      exact hfind l hl (by simp [hla])
    | some e =>
      rw [fsStep_some hfind]
      exact ih acc hnd

/-- Every row of the fold result comes from the accumulator, or is a row of
the input whose actor id was absent from the accumulator. -/
lemma fs_origin (rows : List LocRow) :
    ∀ acc : List LocRow, ∀ l : LocRow,
      l ∈ rows.foldl fsStep acc →
      l ∈ acc ∨ (l ∈ rows ∧ l.actor_id ∉ acc.map LocRow.actor_id) := by
  induction rows with
  | nil => intro acc l h; simp at h; exact Or.inl h
  | cons r rest ih =>
    intro acc l hl
    rw [List.foldl_cons] at hl
    cases hfind : acc.find? (fun l => l.actor_id == r.actor_id) with
    | none =>
      rw [fsStep_none hfind] at hl
      have hna : r.actor_id ∉ acc.map LocRow.actor_id := by
        rw [List.find?_eq_none] at hfind
        intro hmem
        rcases List.mem_map.mp hmem with ⟨x, hx, hxa⟩
        exact hfind x hx (by simp [hxa])
      rcases ih (acc ++ [r]) l hl with h | ⟨hmem, hnot⟩
      · rcases List.mem_append.mp h with h | h
        · exact Or.inl h
        · refine Or.inr ⟨?_, ?_⟩
          · simp only [List.mem_singleton] at h
            subst h; exact List.mem_cons_self _ _
          · simp only [List.mem_singleton] at h
            subst h; exact hna
      · refine Or.inr ⟨List.mem_cons_of_mem _ hmem, ?_⟩
        intro hc
        exact hnot (by rw [List.map_append]; exact List.mem_append.mpr (Or.inl hc))
    | some e =>
      rw [fsStep_some hfind] at hl
      rcases ih acc l hl with h | ⟨hmem, hnot⟩
      · exact Or.inl h
      · exact Or.inr ⟨List.mem_cons_of_mem _ hmem, hnot⟩

/-- On a descending input every emitted row carries the maximum timestamp of
its actor: rows of the accumulator already dominate the remaining input, and
a row emitted from the input is the first (hence newest) one of its actor. -/
lemma fs_max (rows : List LocRow) :
    ∀ acc : List LocRow,
      (∀ l ∈ acc, ∀ r ∈ rows, r.updated_at ≤ l.updated_at) →
      SortedDesc rows →
      ∀ l ∈ rows.foldl fsStep acc, ∀ r ∈ rows,
        r.actor_id = l.actor_id → r.updated_at ≤ l.updated_at := by
  induction rows with
  | nil => intro acc _ _ l _ r hr; simp at hr
  | cons r rest ih =>
    intro acc hdom hsorted l hl q hq hqa
    rw [List.foldl_cons] at hl
    have hsorted' : SortedDesc rest := (List.pairwise_cons.mp hsorted).2
    have hhead : ∀ b ∈ rest, b.updated_at ≤ r.updated_at :=
      (List.pairwise_cons.mp hsorted).1
    cases hfind : acc.find? (fun l => l.actor_id == r.actor_id) with
    | none =>
      rw [fsStep_none hfind] at hl
      have hdom' : ∀ x ∈ acc ++ [r], ∀ s ∈ rest, s.updated_at ≤ x.updated_at := by
        intro x hx s hs
        rcases List.mem_append.mp hx with hx | hx
        · exact hdom x hx s (List.mem_cons_of_mem _ hs)
        · simp only [List.mem_singleton] at hx
          subst hx; exact hhead s hs
      rcases List.mem_cons.mp hq with hq | hq
      · subst hq
        rcases fs_origin rest (acc ++ [q]) l hl with horig | ⟨_, hnot⟩
        · rcases List.mem_append.mp horig with h | h
          · exact hdom l h q (List.mem_cons_self _ _)
          · simp only [List.mem_singleton] at h
            subst h; exact le_refl _
        · exfalso
          apply hnot
          rw [List.map_append, ← hqa]
          exact List.mem_append.mpr (Or.inr (by simp))
      · exact ih (acc ++ [r]) hdom' hsorted' l hl q hq hqa
    | some e =>
      rw [fsStep_some hfind] at hl
      have hdom' : ∀ x ∈ acc, ∀ s ∈ rest, s.updated_at ≤ x.updated_at :=
        fun x hx s hs => hdom x hx s (List.mem_cons_of_mem _ hs)
      rcases List.mem_cons.mp hq with hq | hq
      · subst hq
        rcases fs_origin rest acc l hl with horig | ⟨_, hnot⟩
        · exact hdom l horig q (List.mem_cons_self _ _)
        · exfalso
          apply hnot
          rw [← hqa]
          have := List.mem_of_find?_eq_some hfind
          have he : e.actor_id = q.actor_id := by
            have := List.find?_some hfind
            simpa using this
          exact he ▸ List.mem_map_of_mem LocRow.actor_id this
      · exact ih acc hdom' hsorted' l hl q hq hqa

/-- On a descending input the first-seen fold and the replace-on-greater fold
agree step by step: the replacement branch never fires because the emitted
row of an actor is never older than a later row of the same actor. -/
lemma fs_eq_repl (rows : List LocRow) :
    ∀ acc : List LocRow,
      (∀ l ∈ acc, ∀ r ∈ rows, r.updated_at ≤ l.updated_at) →
      SortedDesc rows →
      rows.foldl fsStep acc = rows.foldl replStep acc := by
  induction rows with
  | nil => intro acc _ _; rfl
  | cons r rest ih =>
    intro acc hdom hsorted
    have hsorted' : SortedDesc rest := (List.pairwise_cons.mp hsorted).2
    have hhead : ∀ b ∈ rest, b.updated_at ≤ r.updated_at :=
      (List.pairwise_cons.mp hsorted).1
    rw [List.foldl_cons, List.foldl_cons]
    cases hfind : acc.find? (fun l => l.actor_id == r.actor_id) with
    | none =>
      rw [fsStep_none hfind, replStep_none hfind]
      apply ih
      · intro x hx s hs
        rcases List.mem_append.mp hx with hx | hx
        · exact hdom x hx s (List.mem_cons_of_mem _ hs)
        · simp only [List.mem_singleton] at hx
          subst hx; exact hhead s hs
      · exact hsorted'
    | some e =>
      have hts : ¬ e.updated_at < r.updated_at := by
        have hmem := List.mem_of_find?_eq_some hfind
        have := hdom e hmem r (List.mem_cons_self _ _)
        omega
      rw [fsStep_some hfind, replStep_skip hfind hts]
      apply ih
      · intro x hx s hs
        exact hdom x hx s (List.mem_cons_of_mem _ hs)
      · exact hsorted'

/-- The latest-per-actor contract (spec section 4.2): the output holds
exactly one row per distinct actor id of the input, and each output row is
an input row carrying the maximum timestamp among its actor's input rows. -/
def LatestPerActor (rows out : List LocRow) : Prop :=
  (out.map LocRow.actor_id).Nodup
  ∧ (∀ a, a ∈ out.map LocRow.actor_id ↔ a ∈ rows.map LocRow.actor_id)
  ∧ ∀ l ∈ out, l ∈ rows ∧
      ∀ r ∈ rows, r.actor_id = l.actor_id → r.updated_at ≤ l.updated_at

/-- C1: for every list of location rows ordered by `updated_at` descending
(the order the fetch requests), both dedup reduces — the first-seen one of
`EnhancedMapComponent.fetchDriverLocations` and the replace-on-greater one
of `MapComponent.fetchDriverLocations` / `fetchPassengerLocations` — return
exactly one row per distinct actor id present in the input, and the row
returned for each actor has the maximum `updated_at` among that actor's
input rows; on ties any qualifying row may be kept (the contract only
bounds the timestamp from below by every tied row). -/
theorem c1_latest_per_actor_dedup (rows : List LocRow) (hsorted : SortedDesc rows) :
    LatestPerActor rows (dedupFirstSeen rows)
    ∧ LatestPerActor rows (dedupReplace rows) := by
  have h3 : ∀ l ∈ dedupFirstSeen rows, l ∈ rows := by
    intro l hl
    rcases fs_origin rows [] l hl with h | ⟨h, _⟩
    · simp at h
    · exact h
  have hfs : LatestPerActor rows (dedupFirstSeen rows) := by
    refine ⟨fs_nodup rows [] (by simp), ?_, ?_⟩
    · intro a
      have := fs_actors rows [] a
      simpa [dedupFirstSeen] using this
    · intro l hl
      exact ⟨h3 l hl, fun r hr hra => fs_max rows [] (by simp) hsorted l hl r hr hra⟩
  have heq : dedupFirstSeen rows = dedupReplace rows :=
    fs_eq_repl rows [] (by simp) hsorted
  exact ⟨hfs, heq ▸ hfs⟩

def c1Rows : List LocRow :=
  [⟨1, 1, 10, 0, none, none, 30⟩, ⟨2, 2, 11, 0, none, none, 20⟩,
   ⟨3, 1, 12, 0, none, none, 10⟩]

theorem c1_witness :
    SortedDesc c1Rows
    ∧ LatestPerActor c1Rows (dedupFirstSeen c1Rows)
    ∧ LatestPerActor c1Rows (dedupReplace c1Rows) :=
  ⟨by decide, (c1_latest_per_actor_dedup c1Rows (by decide)).1,
    (c1_latest_per_actor_dedup c1Rows (by decide)).2⟩

/-- C2: on an input sorted by timestamp descending the first-seen dedup of
`EnhancedMapComponent.fetchDriverLocations` and the
replace-on-strictly-greater dedup of `MapComponent.fetchDriverLocations`
produce the same list of rows, hence the same actor-to-row mapping. -/
theorem c2_dedup_variants_agree (rows : List LocRow) (hsorted : SortedDesc rows) :
    dedupFirstSeen rows = dedupReplace rows :=
  fs_eq_repl rows [] (by simp) hsorted

def c2Rows : List LocRow :=
  [⟨1, 5, 1, 2, none, none, 40⟩, ⟨2, 5, 3, 4, none, none, 40⟩,
   ⟨3, 6, 5, 6, none, none, 7⟩]

theorem c2_witness :
    SortedDesc c2Rows ∧ dedupFirstSeen c2Rows = dedupReplace c2Rows :=
  ⟨by decide, c2_dedup_variants_agree c2Rows (by decide)⟩

/-- A plain insert into a location table: the submissions of
`updateLocation` in `src/unnamed/part_002` (driver rows) and
`src/unnamed/part_003` (passenger rows), and of `updateUserLocation` in
`src/unnamed/part_004`. -/
def insertLocation (store : List LocRow) (row : LocRow) : List LocRow :=
  store ++ [row]

/-- The `upsert` with `onConflict: driver_id` of `startLocationSharing` in
`src/src/pages/DriverDashboard.tsx` lines 79-90: when the store already
holds a row for the same driver id that row is replaced, otherwise the row
is appended. -/
def upsertLocationByDriver (store : List LocRow) (row : LocRow) : List LocRow :=
  if store.any (fun l => l.actor_id == row.actor_id) then
    store.map (fun l => if l.actor_id == row.actor_id then row else l)
  else store ++ [row]

/-- The state touched by the location-sharing flow: the React `isSharing`
flag, whether the geolocation watch started by `watchPosition` is still
active (`clearWatch` has not been called on it), the persisted rows of the
location table, the insert attempts issued to the store, and the toast
messages surfaced to the user. -/
structure SharingState where
  isSharing : Bool
  watchActive : Bool
  store : List LocRow
  submitted : List LocRow
  toasts : List String
deriving Repr, DecidableEq

def failedUpdateMsg : String := "Failed to update location"

def insecureMsg : String := "Location sharing requires HTTPS"

/-- The `updateLocation` callback of `startLocationSharing` in
`src/unnamed/part_002` / `part_003`: issue the insert; when the store
accepts, the row is persisted; when it rejects, the error is logged, the
failure toast is surfaced and `setIsSharing(false)` runs — but
`clearWatch` is not called, so the watch stays active. The row is not
resubmitted. -/
def updateLocation (s : SharingState) (row : LocRow) (insertOk : Bool) : SharingState :=
  if insertOk then
    { s with submitted := s.submitted ++ [row],
             store := insertLocation s.store row }
  else
    { s with submitted := s.submitted ++ [row],
             toasts := s.toasts ++ [failedUpdateMsg],
             isSharing := false }

/-- One `watchPosition` callback: it fires only while the watch is active. -/
def positionEvent (s : SharingState) (row : LocRow) (insertOk : Bool) : SharingState :=
  if s.watchActive then updateLocation s row insertOk else s

/-- A run of successive device position callbacks, each paired with the
store's verdict on its insert. -/
def runEvents (s : SharingState) (evs : List (LocRow × Bool)) : SharingState :=
  evs.foldl (fun st pe => positionEvent st pe.1 pe.2) s

/-- The environment `startLocationSharing` inspects before starting. -/
structure StartCtx where
  geolocationSupported : Bool
  isSecureContext : Bool
  userId : Option Nat
deriving Repr, DecidableEq

/-- `startLocationSharing` of `src/unnamed/part_002` lines 79-133 and
`src/unnamed/part_003` lines 71-125: guard on geolocation support, then on
`window.isSecureContext`, then on the signed-in user; only past all three
guards set the sharing flag and start the position watch. -/
def startLocationSharingChecked (ctx : StartCtx) (s : SharingState) : SharingState :=
  if ctx.geolocationSupported = false then
    { s with toasts := s.toasts ++ ["Geolocation is not supported by this browser"] }
  else if ctx.isSecureContext = false then
    { s with toasts := s.toasts ++ [insecureMsg] }
  else if ctx.userId = none then
    { s with toasts := s.toasts ++ ["Please sign in to share location"] }
  else
    { s with isSharing := true, watchActive := true,
             toasts := s.toasts ++ ["Location sharing started"] }

/-- `startLocationSharing` of `src/src/pages/DriverDashboard.tsx` lines
69-111: only the geolocation-support guard exists; there is no
secure-context check before the watch starts. -/
def startLocationSharingUnchecked (ctx : StartCtx) (s : SharingState) : SharingState :=
  if ctx.geolocationSupported = false then
    { s with toasts := s.toasts ++ ["Geolocation is not supported by this browser"] }
  else
    { s with isSharing := true, watchActive := true,
             toasts := s.toasts ++ ["Location sharing started"] }

/-- The `updateLocation` callback of `src/src/pages/DriverDashboard.tsx`:
an upsert keyed on driver_id whose result is never inspected, so a
rejected write changes nothing and surfaces nothing. -/
def updateLocationUpsert (s : SharingState) (row : LocRow) (storeOk : Bool) : SharingState :=
  if storeOk then
    { s with submitted := s.submitted ++ [row],
             store := upsertLocationByDriver s.store row }
  else
    { s with submitted := s.submitted ++ [row] }

/-- The state right after a successful start of sharing on a fresh page. -/
def startedState : SharingState :=
  { isSharing := true, watchActive := true, store := [], submitted := [],
    toasts := [] }

/-- The idle state of a fresh page: nothing sharing, no watch, empty
store. -/
def idleState : SharingState :=
  { isSharing := false, watchActive := false, store := [], submitted := [],
    toasts := [] }

def c3Row1 : LocRow := ⟨1, 7, 10, 0, none, none, 100⟩

def c3Row2 : LocRow := ⟨2, 7, 20, 0, none, none, 200⟩

/-- C3 (observed divergence): with sharing active, a rejected insert
surfaces the failure toast, clears the sharing flag and is not retried —
but the geolocation watch is never cleared, so the next device callback
still submits (and here persists) another row: the sampling stream is not
stopped by the failure. -/
theorem c3_watch_survives_write_failure :
    (runEvents startedState [(c3Row1, false), (c3Row2, true)]).isSharing = false
    ∧ failedUpdateMsg ∈ (runEvents startedState [(c3Row1, false), (c3Row2, true)]).toasts
    ∧ (runEvents startedState [(c3Row1, false), (c3Row2, true)]).submitted = [c3Row1, c3Row2]
    ∧ (runEvents startedState [(c3Row1, false), (c3Row2, true)]).store = [c3Row2] := by
  decide

def insecureCtx : StartCtx := ⟨true, false, some 7⟩

def c4Row : LocRow := ⟨1, 7, 10, 20, none, none, 100⟩

/-- C4 counterexample: the `startLocationSharing` of
`src/src/pages/DriverDashboard.tsx` has no secure-context guard — in an
insecure context it still starts the watch, and the first device callback
persists a location row. -/
theorem c4_counterexample :
    insecureCtx.isSecureContext = false
    ∧ (startLocationSharingUnchecked insecureCtx idleState).watchActive = true
    ∧ (updateLocationUpsert (startLocationSharingUnchecked insecureCtx idleState)
        c4Row true).store = [c4Row] := by
  decide

/-- C4 (amended): in the guarded starters of `src/unnamed/part_002` and
`src/unnamed/part_003`, starting while the secure-context precondition is
false surfaces the HTTPS error, starts no watch, persists no row, and
subsequent device callbacks are no-ops. -/
theorem c4_checked_insecure_no_start (ctx : StartCtx) (s : SharingState)
    (hgeo : ctx.geolocationSupported = true)
    (hsec : ctx.isSecureContext = false)
    (hwatch : s.watchActive = false) :
    (startLocationSharingChecked ctx s).store = s.store
    ∧ (startLocationSharingChecked ctx s).watchActive = false
    ∧ insecureMsg ∈ (startLocationSharingChecked ctx s).toasts
    ∧ ∀ row ok, positionEvent (startLocationSharingChecked ctx s) row ok
        = startLocationSharingChecked ctx s := by
  have hstart : startLocationSharingChecked ctx s
      = { s with toasts := s.toasts ++ [insecureMsg] } := by
    unfold startLocationSharingChecked
    rw [hgeo, hsec]
    simp
  rw [hstart]
  refine ⟨rfl, hwatch, by simp, ?_⟩
  intro row ok
  unfold positionEvent
  simp [hwatch]

theorem c4_witness :
    (insecureCtx.geolocationSupported = true
      ∧ insecureCtx.isSecureContext = false
      ∧ idleState.watchActive = false)
    ∧ ((startLocationSharingChecked insecureCtx idleState).store = idleState.store
      ∧ (startLocationSharingChecked insecureCtx idleState).watchActive = false
      ∧ insecureMsg ∈ (startLocationSharingChecked insecureCtx idleState).toasts
      ∧ ∀ row ok, positionEvent (startLocationSharingChecked insecureCtx idleState) row ok
          = startLocationSharingChecked insecureCtx idleState) :=
  ⟨by decide,
    c4_checked_insecure_no_start insecureCtx idleState rfl rfl rfl⟩

def c7Row0 : LocRow := ⟨1, 9, 10, 0, none, none, 100⟩

def c7Row1 : LocRow := ⟨2, 9, 30, 0, none, none, 200⟩

/-- C7 counterexample: the upsert submission of
`src/src/pages/DriverDashboard.tsx` does not append — with a row for
driver 9 already stored, submitting another row for driver 9 keeps the
store at one row and the existing row is replaced in place. -/
theorem c7_counterexample :
    (upsertLocationByDriver [c7Row0] c7Row1).length = 1
    ∧ c7Row0 ∉ upsertLocationByDriver [c7Row0] c7Row1
    ∧ upsertLocationByDriver [c7Row0] c7Row1 = [c7Row1] := by
  decide

/-- C7 (amended): every insert-based location submission (part_002,
part_003, part_004) appends exactly one new row at the end and leaves every
existing row of the store unchanged in place; only the DriverDashboard.tsx
upsert variant replaces rows. -/
theorem c7_insert_append_only (store : List LocRow) (row : LocRow) :
    (insertLocation store row).take store.length = store
    ∧ (insertLocation store row).drop store.length = [row]
    ∧ (insertLocation store row).length = store.length + 1 := by
  refine ⟨List.take_left store [row], List.drop_left store [row], ?_⟩
  simp [insertLocation]

/-- The trip fields `handleBookingSubmit` consults. -/
structure TripRec where
  id : Nat
  driver_id : Nat
  available_seats : Nat
  status : String
deriving Repr, DecidableEq

/-- The booking form state of `src/src/pages/TripDetails.tsx`. -/
structure BookingForm where
  seats : Nat
  message : Option String
deriving Repr, DecidableEq

/-- A row of the `bookings` table. -/
structure BookingRow where
  id : Nat
  trip_id : Nat
  passenger_id : Nat
  seats_requested : Nat
  message : Option String
  status : String
deriving Repr, DecidableEq

/-- Outcome of a booking submission attempt: the three guard rejections of
`handleBookingSubmit`, or the row handed to the insert. -/
inductive BookingSubmitResult where
  | mustLogIn : BookingSubmitResult
  | ownTrip : BookingSubmitResult
  | notEnoughSeats : BookingSubmitResult
  | booked : BookingRow → BookingSubmitResult
deriving Repr, DecidableEq

/-- `handleBookingSubmit` of `src/src/pages/TripDetails.tsx` lines 121-174:
require a signed-in non-driver user, reject when the requested seats exceed
`trip.available_seats`, and only then issue the insert of a pending
booking.  The inserted row's id is assigned by the store and irrelevant
here (0). -/
def handleBookingSubmit (user : Option Nat) (trip : Option TripRec)
    (form : BookingForm) : BookingSubmitResult :=
  match user, trip with
  | none, _ => .mustLogIn
  | some _, none => .mustLogIn
  | some uid, some t =>
    if t.driver_id == uid then .ownTrip
    else if t.available_seats < form.seats then .notEnoughSeats
    else .booked { id := 0, trip_id := t.id, passenger_id := uid,
                   seats_requested := form.seats, message := form.message,
                   status := "pending" }

/-- The bookings table after a submission attempt: only a `booked` outcome
reaches the insert. -/
def bookingsAfterSubmit (store : List BookingRow)
    (res : BookingSubmitResult) : List BookingRow :=
  match res with
  | .booked b => store ++ [b]
  | _ => store

/-- C5: a booking request for more seats than the trip has available never
produces a `booked` outcome — the insert is never issued and the bookings
table is unchanged. -/
theorem c5_overbooking_rejected (uid : Nat) (t : TripRec) (form : BookingForm)
    (store : List BookingRow)
    (hseats : t.available_seats < form.seats) :
    (∀ b, handleBookingSubmit (some uid) (some t) form ≠ .booked b)
    ∧ bookingsAfterSubmit store (handleBookingSubmit (some uid) (some t) form)
        = store := by
  have hres : handleBookingSubmit (some uid) (some t) form = .ownTrip
      ∨ handleBookingSubmit (some uid) (some t) form = .notEnoughSeats := by
    unfold handleBookingSubmit
    by_cases hown : t.driver_id == uid
    · simp [hown]
    · simp [hown, hseats]
  constructor
  · intro b hb
    rcases hres with hres | hres <;> rw [hres] at hb <;> cases hb
  · rcases hres with hres | hres <;> rw [hres] <;> rfl

def c5Trip : TripRec := ⟨1, 4, 3, "scheduled"⟩

def c5Form : BookingForm := ⟨5, none⟩

theorem c5_witness :
    c5Trip.available_seats < c5Form.seats
    ∧ (∀ b, handleBookingSubmit (some 8) (some c5Trip) c5Form ≠ .booked b)
    ∧ bookingsAfterSubmit [] (handleBookingSubmit (some 8) (some c5Trip) c5Form)
        = [] :=
  ⟨by decide, (c5_overbooking_rejected 8 c5Trip c5Form [] (by decide)).1,
    (c5_overbooking_rejected 8 c5Trip c5Form [] (by decide)).2⟩

/-- The `update bookings set status where id` issued by
`updateBookingStatus`. -/
def setBookingStatus (store : List BookingRow) (bookingId : Nat)
    (status : String) : List BookingRow :=
  store.map (fun b => if b.id == bookingId then { b with status := status } else b)

/-- What a run of `updateBookingStatus` leaves behind: the bookings table,
whether the notification function was invoked, and the console warnings. -/
structure DirectoryOutcome where
  bookings : List BookingRow
  dispatchAttempted : Bool
  warnings : List String
deriving Repr, DecidableEq

/-- `updateBookingStatus` of `src/unnamed/part_002` lines 144-174: update
the booking's status; only on success invoke the notification function
fire-and-forget; a dispatch failure is only logged (`console.warn`), it
touches no booking row. -/
def updateBookingStatus (store : List BookingRow) (bookingId : Nat)
    (status : String) (updateOk : Bool) (dispatchOk : Bool) : DirectoryOutcome :=
  if updateOk then
    { bookings := setBookingStatus store bookingId status,
      dispatchAttempted := true,
      warnings := if dispatchOk then [] else ["Notification function error"] }
  else
    { bookings := store, dispatchAttempted := false,
      warnings := ["Booking update error"] }

/-- C6: when the driver accepts a pending booking (the status update
succeeds), every row with that id ends with status accepted, the
notification dispatch is attempted, and the resulting bookings table is the
same whether the dispatch succeeds or fails. -/
theorem c6_accept_then_dispatch (store : List BookingRow) (bookingId : Nat)
    (d : Bool) :
    (updateBookingStatus store bookingId "accepted" true d).dispatchAttempted = true
    ∧ (updateBookingStatus store bookingId "accepted" true d).bookings
        = (updateBookingStatus store bookingId "accepted" true (!d)).bookings
    ∧ ∀ b ∈ (updateBookingStatus store bookingId "accepted" true d).bookings,
        b.id = bookingId → b.status = "accepted" := by
  refine ⟨rfl, rfl, ?_⟩
  intro b hb hid
  simp only [updateBookingStatus, if_true, setBookingStatus, List.mem_map] at hb
  rcases hb with ⟨c, hc, hcb⟩
  by_cases h : c.id == bookingId
  · rw [if_pos h] at hcb
    rw [← hcb]
  · rw [if_neg h] at hcb
    subst hcb
    exact absurd (by simp [hid]) h

def c6Store : List BookingRow :=
  [⟨11, 1, 8, 2, none, "pending"⟩, ⟨12, 1, 9, 1, none, "rejected"⟩]

theorem c6_witness :
    (updateBookingStatus c6Store 11 "accepted" true false).dispatchAttempted = true
    ∧ (updateBookingStatus c6Store 11 "accepted" true false).bookings
        = (updateBookingStatus c6Store 11 "accepted" true (!false)).bookings
    ∧ ∀ b ∈ (updateBookingStatus c6Store 11 "accepted" true false).bookings,
        b.id = 11 → b.status = "accepted" :=
  c6_accept_then_dispatch c6Store 11 false

/-- The teardown-relevant state: the global `window.locationWatchId`
handle, the React `isSharing` flag, and the device watches currently
registered with the geolocation service. -/
structure WatchRegistry where
  locationWatchId : Option Nat
  isSharing : Bool
  activeWatches : List Nat
deriving Repr, DecidableEq

/-- `navigator.geolocation.clearWatch`: drops the watch; clearing an absent
id is a no-op and never throws. -/
def clearWatch (ws : List Nat) (w : Nat) : List Nat :=
  ws.filter (fun x => !(x == w))

/-- `stopLocationSharing` of `src/unnamed/part_002` lines 135-142: when the
global handle is set, clear that watch and delete the handle; always clear
the sharing flag. -/
def stopLocationSharing (s : WatchRegistry) : WatchRegistry :=
  match s.locationWatchId with
  | some w => { locationWatchId := none, isSharing := false,
                activeWatches := clearWatch s.activeWatches w }
  | none => { s with isSharing := false }

/-- `supabase.removeChannel`: removing a channel that is no longer
registered is a no-op. -/
def removeChannel (chs : List Nat) (c : Nat) : List Nat :=
  chs.filter (fun x => !(x == c))

/-- The unmount cleanup of `EnhancedMapComponent` (`src/unnamed/part_004`
lines 154-158): remove the driver and the passenger subscription. -/
def unmountCleanup (chs : List Nat) (driverSub passengerSub : Nat) : List Nat :=
  removeChannel (removeChannel chs driverSub) passengerSub

lemma unmountCleanup_idem (chs : List Nat) (d p : Nat) :
    unmountCleanup (unmountCleanup chs d p) d p = unmountCleanup chs d p := by
  unfold unmountCleanup removeChannel
  simp only [List.filter_filter]
  congr 1
  funext x
  cases h1 : x == d <;> cases h2 : x == p <;> simp [h1, h2]

/-- C8: tearing down twice is safe and idempotent — `stopLocationSharing`
applied twice equals it applied once, it leaves the sharing flag cleared
and the stored watch removed; the presenter unmount cleanup applied twice
equals it applied once and leaves neither of its two subscriptions
registered. (Both are total functions: no call throws.) -/
theorem c8_teardown_idempotent (s : WatchRegistry) (chs : List Nat) (d p : Nat) :
    stopLocationSharing (stopLocationSharing s) = stopLocationSharing s
    ∧ (stopLocationSharing s).isSharing = false
    ∧ (∀ w, s.locationWatchId = some w → w ∉ (stopLocationSharing s).activeWatches)
    ∧ unmountCleanup (unmountCleanup chs d p) d p = unmountCleanup chs d p
    ∧ d ∉ unmountCleanup chs d p
    ∧ p ∉ unmountCleanup chs d p := by
  obtain ⟨wid, sh, ws⟩ := s
  refine ⟨?_, ?_, ?_, unmountCleanup_idem chs d p, ?_, ?_⟩
  · cases wid <;> rfl
  · cases wid <;> rfl
  · intro w hw
    cases wid with
    | none => cases hw
    | some w0 =>
      cases hw
      simp [stopLocationSharing, clearWatch, List.mem_filter]
  · simp [unmountCleanup, removeChannel, List.mem_filter]
  · simp [unmountCleanup, removeChannel, List.mem_filter]

def c8Registry : WatchRegistry := ⟨some 3, true, [3, 4]⟩

theorem c8_witness :
    stopLocationSharing (stopLocationSharing c8Registry)
        = stopLocationSharing c8Registry
    ∧ (stopLocationSharing c8Registry).isSharing = false
    ∧ (∀ w, c8Registry.locationWatchId = some w
        → w ∉ (stopLocationSharing c8Registry).activeWatches)
    ∧ unmountCleanup (unmountCleanup [1, 2] 1 2) 1 2 = unmountCleanup [1, 2] 1 2
    ∧ 1 ∉ unmountCleanup [1, 2] 1 2
    ∧ 2 ∉ unmountCleanup [1, 2] 1 2 :=
  c8_teardown_idempotent c8Registry [1, 2] 1 2

/-- The presenter state a viewport adjustment may touch: the map viewport
and the rendered marker rows. -/
structure PresenterView where
  viewport : Option (Int × Int × Nat)
  markers : List LocRow
deriving Repr, DecidableEq

/-- The guarded viewport adjustment: the `try setView catch ignore` of the
user-centering effect (`src/src/components/map/MapComponent.tsx` lines
97-103, `EnhancedMapComponent.tsx` lines 164-172) and the `try fitBounds
catch console.warn` of the trip-bounds effect (`src/unnamed/part_004`
lines 187-216).  The underlying widget either applies the new viewport or
throws; the thrown message is swallowed by the catch. -/
def adjustViewportSafe (s : PresenterView)
    (outcome : Except String (Int × Int × Nat)) : PresenterView :=
  match outcome with
  | Except.ok v => { s with viewport := some v }
  | Except.error _ => s

/-- C9: viewport recentering is best-effort — a widget failure leaves the
presenter state exactly as it was, and no adjustment (successful or not)
ever changes the marker state; `adjustViewportSafe` is total, so no
exception propagates out of the presenter. -/
theorem c9_recenter_best_effort (s : PresenterView) (msg : String) :
    adjustViewportSafe s (Except.error msg) = s
    ∧ ∀ outcome, (adjustViewportSafe s outcome).markers = s.markers := by
  refine ⟨rfl, ?_⟩
  intro outcome
  cases outcome <;> rfl

/-- The create-trip form state (`src/unnamed/part_000`): the combined
departure date and time is one epoch number. -/
structure TripForm where
  startLocation : String
  destination : String
  departureTime : Nat
  availableSeats : Nat
  pricePerSeat : Option Int
  description : Option String
deriving Repr, DecidableEq

/-- The row handed to the `trips` insert. -/
structure TripInsert where
  driver_id : Nat
  start_location : String
  destination : String
  departure_time : Nat
  available_seats : Nat
  price_per_seat : Option Int
  description : Option String
  status : String
deriving Repr, DecidableEq

/-- Outcome of a create-trip submission. -/
inductive CreateTripResult where
  | mustLogIn : CreateTripResult
  | pastDeparture : CreateTripResult
  | created : TripInsert → CreateTripResult
deriving Repr, DecidableEq

/-- `handleSubmit` of the CreateTrip page (`src/unnamed/part_000` lines
35-84): require a profile, reject a departure time not in the future
(`departureDateTime <= new Date()`), then insert the trip with status
hard-coded to scheduled. -/
def handleSubmitTrip (profile : Option Nat) (now : Nat)
    (form : TripForm) : CreateTripResult :=
  match profile with
  | none => .mustLogIn
  | some uid =>
    if form.departureTime ≤ now then .pastDeparture
    else .created { driver_id := uid,
                    start_location := form.startLocation,
                    destination := form.destination,
                    departure_time := form.departureTime,
                    available_seats := form.availableSeats,
                    price_per_seat := form.pricePerSeat,
                    description := form.description,
                    status := "scheduled" }

/-- C10: every trip the creation operation actually inserts carries the
initial status scheduled. -/
theorem c10_created_trip_scheduled (profile : Option Nat) (now : Nat)
    (form : TripForm) (t : TripInsert)
    (h : handleSubmitTrip profile now form = .created t) :
    t.status = "scheduled" := by
  cases profile with
  | none =>
    simp only [handleSubmitTrip] at h
    cases h
  | some uid =>
    simp only [handleSubmitTrip] at h
    by_cases hd : form.departureTime ≤ now
    · rw [if_pos hd] at h
      cases h
    · rw [if_neg hd] at h
      cases h
      rfl

def c10Form : TripForm := ⟨"A", "B", 200, 3, none, none⟩

def c10Trip : TripInsert := ⟨7, "A", "B", 200, 3, none, none, "scheduled"⟩

theorem c10_witness :
    handleSubmitTrip (some 7) 100 c10Form = .created c10Trip
    ∧ c10Trip.status = "scheduled" :=
  ⟨by decide, c10_created_trip_scheduled (some 7) 100 c10Form c10Trip (by decide)⟩
